import Mathlib

/-!
Verification of the stepping engine of `src/chronos/main.py` (repository
oneil512/Chronos), a time-travel statement-level stepping debugger.

The Python module is shallowly embedded below.  Representation choices:

* Python `dict` (insertion-ordered, unique keys) is modelled as an
  association list `List (String × Value)`; `dlookup` takes the first
  match, which agrees with `dict` lookup on duplicate-free lists, and all
  lists built by the model keep keys unique when their inputs do.
* Python `list.append`/`list.pop()` act on the END of a list; the Lean
  lists below store that end at the HEAD.  So for the frame stack the head
  is `stack[-1]` (the active frame), for `states_across_time` the head is
  the most recent snapshot, and the pending queue is kept in execution
  order (head = the statement `ast_stack.pop()` returns next).
* `copy.deepcopy` is the identity in a pure model.
* `exec` is external to the claims: each statement carries the list of
  bindings (`effects`) that executing its text writes into the locals
  mapping handed to `exec`.
-/

/-- A runtime value stored in a frame binding: captured source text,
an abstract object produced by `exec`, or an integer. -/
inductive Value where
  | str (s : String)
  | func (name : String)
  | intv (n : Int)
  deriving DecidableEq, Repr

/-- Python `str.strip()` : drop leading and trailing whitespace. -/
def pyStrip (s : String) : String :=
  ⟨((s.data.dropWhile Char.isWhitespace).reverse.dropWhile Char.isWhitespace).reverse⟩

/-- First-match lookup in an association list; on the duplicate-free lists
a Python `dict` denotes, this is exactly `d[k]` / `k in d`. -/
def dlookup (k : String) : List (String × Value) → Option Value
  | [] => none
  | kv :: rest => if kv.1 = k then some kv.2 else dlookup k rest

/-- Python `d[k] = v` on a dict: update the value in place if the key is
present (keeping its position), otherwise append the new pair. -/
def dictSet (d : List (String × Value)) (k : String) (v : Value) :
    List (String × Value) :=
  if (dlookup k d).isSome then
    d.map (fun kv => if kv.1 = k then (k, v) else kv)
  else
    d ++ [(k, v)]

/-- Python `{**a, **b}`: the keys of `a` in order with values updated from
`b` where present, then the keys of `b` not in `a`, in `b`'s order. -/
def dictMerge (a b : List (String × Value)) : List (String × Value) :=
  (a.map (fun kv =>
    match dlookup kv.1 b with
    | some v => (kv.1, v)
    | none => kv))
  ++ b.filter (fun kv => (dlookup kv.1 a).isNone)

instance {ε α : Type} [DecidableEq ε] [DecidableEq α] : DecidableEq (Except ε α) :=
  fun a b =>
    match a, b with
    | .ok x, .ok y =>
      if h : x = y then .isTrue (by rw [h])
      else .isFalse (fun hc => h (Except.ok.inj hc))
    | .error x, .error y =>
      if h : x = y then .isTrue (by rw [h])
      else .isFalse (fun hc => h (Except.error.inj hc))
    | .ok _, .error _ => .isFalse (fun hc => Except.noConfusion hc)
    | .error _, .ok _ => .isFalse (fun hc => Except.noConfusion hc)

/-- `FUNCTION_DEF_KEY_SUFFIX` (main.py line 10): the reserved marker
appended to a function's name when its source text is stored. -/
def FUNCTION_DEF_KEY_SUFFIX : String := "FUNC_DEF"

/-- The statement-kind information the engine inspects on an `ast` node:

* `functionDef name` — an `ast.FunctionDef` (has no `.value` attribute);
* `callStmt callee` — a statement whose `.value` is an `ast.Call` whose
  `func.id` is `callee` (an `ast.Expr` or `ast.Assign` around a call);
* `exprStmt` — a statement with a `.value` attribute that is not a call;
* `plainStmt` — any other statement, carrying no `.value` attribute. -/
inductive Kind where
  | functionDef (name : String)
  | callStmt (callee : String)
  | exprStmt
  | plainStmt
  deriving DecidableEq, Repr

/-- A staged statement node.  `src` is the text `get_executable_str`
locates for it; `effects` are the bindings that `exec`-ing that text
writes into the locals mapping handed to `exec` (the external evaluation
collaborator, abstracted as data; keys are unique as in a `dict`). -/
structure Stmt where
  kind : Kind
  src : String
  effects : List (String × Value)
  deriving DecidableEq, Repr

/-- A frame of the stack: the two name-binding mappings of `run`
(main.py lines 26-29). -/
structure Frame where
  locals : List (String × Value)
  globals : List (String × Value)
  deriving DecidableEq, Repr

instance : Inhabited Frame := ⟨⟨[], []⟩⟩

/-- One entry of `states_across_time`: a deep copy of
`(ast_stack, stack)`. -/
abbrev Snapshot := List Stmt × List Frame

/-- Errors that can propagate out of one iteration of the
`interactive_session` loop. -/
inductive PyErr where
  /-- `IndexError`: `pop` / `[-1]` on an empty list. -/
  | indexErr
  /-- `AttributeError`: `node.value` on a node without that attribute. -/
  | attrErr
  /-- `SystemError` raised by `_resolve` (the `except KeyError` in
  `_step_into` does not match it, so it propagates unchanged). -/
  | sysErr
  /-- `TypeError`: `reversed()` applied to a non-sequence. -/
  | typeErr
  /-- `UnboundLocalError`: reading the local `frame` before any
  assignment to it. -/
  | unboundLocalErr
  deriving DecidableEq, Repr

/-- The mutable state of one `interactive_session` loop: the pending
queue `ast_stack` (head = next statement to pop), the frame stack (head =
`stack[-1]`, the active frame), the history `states_across_time` (head =
most recent snapshot), and whether the Python local variable `frame` has
been assigned by some earlier iteration.  Whenever `frame` is bound it is
the very object sitting at the top of the stack at the start of the next
iteration (every completed iteration that binds it ends with
`stack.append(frame)` and nothing else touches the stack top before the
next iteration reads it), so the model recovers the object `frame`
denotes as the top of the current stack. -/
structure EngineState where
  queue : List Stmt
  stack : List Frame
  history : List Snapshot
  frameBound : Bool
  deriving DecidableEq, Repr

/-- The three step commands of the prompt (main.py lines 12-14). -/
inductive Cmd where
  | over
  | into
  | back
  deriving DecidableEq, Repr

/-- `stack[-1]`, the active frame. -/
def activeFrame (st : EngineState) : Frame := st.stack.headI

/-- `self.states_across_time.append((deepcopy(ast_stack), deepcopy(stack)))`
(main.py lines 134-136). -/
def recordSnapshot (st : EngineState) : EngineState :=
  { st with history := (st.queue, st.stack) :: st.history }

/-- `Debugger._resolve` (main.py lines 183-193): first-match in the
frame's locals, then its globals; `none` models the `SystemError` raised
when the name is absent from both.  Both keys are always present on the
frames this program builds. -/
def resolve (frame : Frame) (name : String) : Option Value :=
  match dlookup name frame.locals with
  | some v => some v
  | none => dlookup name frame.globals

/-- `Debugger._run_executor` (main.py lines 138-153).  `exec` with an
explicit globals and locals dict writes the statement's bindings into the
locals dict in place (and only there); exceptions it raises are caught
and printed inside this method.  `inspect.currentframe().f_locals` is
then `{self, executable_str, frame}` — the exec'd names are NOT among
them — and after deleting `frame` and `self` the surviving binding
`executable_str ↦ executable_str` is merged into both mappings. -/
def run_executor (executable_str : String) (effects : List (String × Value))
    (frame : Frame) : Frame :=
  let localsAfterExec := dictMerge frame.locals effects
  let leftover : List (String × Value) := [("executable_str", .str executable_str)]
  { locals := dictMerge localsAfterExec leftover
    globals := dictMerge frame.globals leftover }

/-- Lines 107-111: `if type(node) is ast.FunctionDef:
stack[-1]["locals"][node.name + FUNCTION_DEF_KEY_SUFFIX] = executable_str`.
On an empty stack `stack[-1]` raises `IndexError`. -/
def captureDef (node : Stmt) (st : EngineState) :
    Except (PyErr × EngineState) EngineState :=
  match node.kind with
  | .functionDef name =>
    match st.stack with
    | [] => .error (.indexErr, st)
    | f :: fs =>
      .ok { st with
            stack := { f with
                       locals := dictSet f.locals
                         (name ++ FUNCTION_DEF_KEY_SUFFIX) (.str node.src) } :: fs }
  | _ => .ok st

/-- The `ast.Module` that `ast.parse` returns; no code path of the engine
ever reads its `body`, because `reversed()` rejects it first, so only the
parsed text is recorded. -/
structure AstModule where
  src : String
  deriving DecidableEq, Repr

/-- `ast.parse` applied to stored definition text (the external parser
collaborator). -/
def ast_parse (s : String) : AstModule := ⟨s⟩

/-- `Debugger._step_into` (main.py lines 165-181): read `stack[-1]`
(IndexError when empty), build the new frame with
`globals = {**prev.locals, **prev.globals}` and empty locals, resolve
`callee + FUNCTION_DEF_KEY_SUFFIX`; on failure `_resolve`'s `SystemError`
propagates (the `except KeyError` does not match it); on success return
`(ast.parse(text), cur_frame)`.  A resolved value that is not a string
would make `ast.parse` raise `TypeError`. -/
def step_into (callee : String) (stack : List Frame) :
    Except PyErr (AstModule × Frame) :=
  match stack with
  | [] => .error .indexErr
  | prev :: _ =>
    let cur : Frame := { globals := dictMerge prev.locals prev.globals, locals := [] }
    match resolve prev (callee ++ FUNCTION_DEF_KEY_SUFFIX) with
    | none => .error .sysErr
    | some (.str text) => .ok (ast_parse text, cur)
    | some _ => .error .typeErr

/-- `reversed(inner_ast)` on line 121: `ast.Module` implements neither
`__reversed__` nor the sequence protocol (`__len__` + `__getitem__`), so
`reversed()` raises `TypeError` before the queue is touched. -/
def reversedModule (_m : AstModule) : Except PyErr (List Stmt) := .error .typeErr

/-- The `STEP_OVER` branch plus the common tail of the loop (main.py
lines 126-136): `frame = self._step_over(executable_str, stack)` pops the
active frame (`IndexError` when the stack is empty), executes the
stripped text against it, and the tail re-appends the returned frame
(always truthy: it contains `executable_str`) and records a snapshot. -/
def doOver (node : Stmt) (st : EngineState) :
    Except (PyErr × EngineState) EngineState :=
  match st.stack with
  | [] => .error (.indexErr, st)
  | f :: fs =>
    let fr := run_executor (pyStrip node.src) node.effects f
    .ok (recordSnapshot { st with stack := fr :: fs, frameBound := true })

/-- The `STEP_BACK` branch plus the common tail (main.py lines 113-115,
131-136, 155-159).  `_step_back` pops the most recent snapshot, then pops
and returns the one before it; with fewer than two snapshots the failing
`pop` raises `IndexError` (after the sole snapshot, if any, was already
discarded).  After a successful restore the tail still runs: `if frame:`
raises `UnboundLocalError` when no earlier iteration assigned `frame`;
otherwise `frame` — the object at the top of the pre-restore stack — is
appended onto the restored stack, and a snapshot of the result is
recorded. -/
def doBack (st : EngineState) : Except (PyErr × EngineState) EngineState :=
  match st.history with
  | [] => .error (.indexErr, st)
  | [_] => .error (.indexErr, { st with history := [] })
  | _ :: (q1, k1) :: rest =>
    if st.frameBound then
      let stale := st.stack.headI
      .ok (recordSnapshot
        { queue := q1, stack := stale :: k1, history := rest, frameBound := true })
    else
      .error (.unboundLocalErr,
        { queue := q1, stack := k1, history := rest, frameBound := false })

/-- The `STEP_INTO` branch (main.py lines 117-124).  `type(node.value)`
raises `AttributeError` on a node without a `.value` attribute
(`ast.FunctionDef` and other plain statements).  When the value is not a
call, a warning is printed and `action = STEP_OVER` falls through to the
`STEP_OVER` branch.  When it is a call, `_step_into` runs and, on
success, `ast_stack.extend(reversed(inner_ast))` raises `TypeError`, so
the session aborts with no frame pushed and no snapshot recorded. -/
def doInto (node : Stmt) (st : EngineState) :
    Except (PyErr × EngineState) EngineState :=
  match node.kind with
  | .callStmt callee =>
    (match step_into callee st.stack with
    | .error e => .error (e, st)
    | .ok (m, _fr) =>
      match reversedModule m with
      | .error e => .error (e, st)
      | .ok innerRev => .ok { st with queue := innerRev ++ st.queue })
  | .exprStmt => doOver node st
  | .functionDef _ => .error (.attrErr, st)
  | .plainStmt => .error (.attrErr, st)

/-- One iteration of the `interactive_session` while-loop (main.py lines
100-136) under the given user command.  With an empty queue the loop
condition fails and no iteration runs.  Otherwise the next node is
popped, a `FunctionDef`'s source text is captured into the active frame's
locals BEFORE the command is dispatched, and then exactly one of the
three command branches (with the shared tail) runs.  An `.error` result
carries the error that propagates (aborting the session) together with
the state of the live objects at the moment it is raised. -/
def sessionStep (action : Cmd) (st : EngineState) :
    Except (PyErr × EngineState) EngineState :=
  match st.queue with
  | [] => .ok st
  | node :: rest =>
    match captureDef node { st with queue := rest } with
    | .error e => .error e
    | .ok st2 =>
      match action with
      | .back => doBack st2
      | .into => doInto node st2
      | .over => doOver node st2

/-- `Debugger.run` + the head of `_run` (main.py lines 23-31, 69-70): the
loaded state for a parsed program — root frame with empty mappings, the
program as pending queue, and the initial snapshot seeding the history. -/
def loadState (program : List Stmt) : EngineState :=
  { queue := program
    stack := [⟨[], []⟩]
    history := [(program, [⟨[], []⟩])]
    frameBound := false }

/-- `Debugger.get_executable_str` (main.py lines 41-59): the source span
of a node, with the fields of the `ast` node (`lineno` 1-based). -/
structure Span where
  lineno : Nat
  col_offset : Nat
  end_lineno : Nat
  end_col_offset : Nat
  deriving DecidableEq, Repr

/-- Python slicing `s[a:b]` on a string: characters `a` to `b-1`, with
both bounds clamped to the string's length. -/
def pySlice (s : String) (a b : Nat) : String :=
  ⟨(s.data.drop a).take (b - a)⟩

/-- `Debugger.get_executable_str` (main.py lines 41-59), literally: loop
`i` over `range(lineno-1, end_lineno)`; `col_offset` is the node's on the
first line and `0` after (it is reset at the end of every iteration), and
`end_col_offset` is the node's on the last line and `0` otherwise; `end`
is `end_col_offset + 1` when `end_col_offset` is truthy and the full line
length otherwise; each slice gets `"\n"` appended.  Indexing is only used
within bounds under the claims' preconditions; an out-of-range line is
modelled as empty. -/
def get_executable_str (node : Span) (code_lines : List String) : String :=
  (List.range' (node.lineno - 1) (node.end_lineno - (node.lineno - 1))).foldl
    (fun acc i =>
      let col := if i = node.lineno - 1 then node.col_offset else 0
      let ecol := if i = node.end_lineno - 1 then node.end_col_offset else 0
      let line := code_lines.getD i ""
      let e := if ecol ≠ 0 then ecol + 1 else line.length
      acc ++ pySlice line col e ++ "\n") ""

/-- The frame after the definition-capture of main.py lines 108-111. -/
def capturedFrame (f : Frame) (name src : String) : Frame :=
  { f with locals := dictSet f.locals (name ++ FUNCTION_DEF_KEY_SUFFIX) (.str src) }

/-- Concatenation of a list of strings. -/
def concatAll (l : List String) : String := l.foldl (fun a b => a ++ b) ""

/-- The per-line pieces of `get_executable_str`, in stateless form: the
slice of line `i` from the node's start column (first line only) up to
`end_col_offset + 1` on the last line when `end_col_offset` is nonzero,
and the full line otherwise. -/
def locatorPieces (node : Span) (code_lines : List String) : List String :=
  (List.range' (node.lineno - 1) (node.end_lineno - (node.lineno - 1))).map (fun i =>
    let col := if i = node.lineno - 1 then node.col_offset else 0
    let ecol := if i = node.end_lineno - 1 then node.end_col_offset else 0
    let line := code_lines.getD i ""
    let e := if ecol ≠ 0 then ecol + 1 else line.length
    pySlice line col e)

/-- Modelled from the spec's words for the Source Locator (spec 4.1), for
comparison with `get_executable_str`: for each line of the span, the
substring from the start column (first line) or 0 (subsequent lines) up
to the end column (end-exclusive, last line) or the full line length
(earlier lines), the pieces joined with newlines. -/
def specLocator (node : Span) (code_lines : List String) : String :=
  String.intercalate "\n"
    ((List.range' (node.lineno - 1) (node.end_lineno - (node.lineno - 1))).map (fun i =>
      let col := if i = node.lineno - 1 then node.col_offset else 0
      let line := code_lines.getD i ""
      let e := if i = node.end_lineno - 1 then node.end_col_offset else line.length
      pySlice line col e))

/-! ### Concrete engine states used by the claim checks -/

/-- The program `x = 1` / `y = 2`, freshly loaded. -/
def c1State : EngineState :=
  loadState [⟨.exprStmt, "x = 1", [("x", .intv 1)]⟩, ⟨.exprStmt, "y = 2", [("y", .intv 2)]⟩]

/-- A staged call `foo()` whose callee has no `fooFUNC_DEF` binding. -/
def c2State : EngineState :=
  { queue := [⟨.callStmt "foo", "foo()", []⟩, ⟨.exprStmt, "x = 1", [("x", .intv 1)]⟩]
    stack := [⟨[], []⟩]
    history := [([⟨.callStmt "foo", "foo()", []⟩, ⟨.exprStmt, "x = 1", [("x", .intv 1)]⟩],
                 [⟨[], []⟩])]
    frameBound := false }

/-- A root frame in which `def add():\n  return 1` was already stepped
over, so `addFUNC_DEF` is bound to the definition's source text. -/
def c3Frame : Frame :=
  ⟨[("addFUNC_DEF", .str "def add():\n  return 1\n"), ("add", .func "add")], []⟩

/-- The scenario of spec 8: `x = add()` staged with `addFUNC_DEF`
resolvable in the active frame. -/
def c3State : EngineState :=
  { queue := [⟨.callStmt "add", "x = add()", [("x", .intv 1)]⟩]
    stack := [c3Frame]
    history := [([⟨.callStmt "add", "x = add()", [("x", .intv 1)]⟩], [c3Frame])]
    frameBound := true }

/-- The program consisting of the single definition `def add(): ...`,
freshly loaded. -/
def c4State : EngineState :=
  loadState [⟨.functionDef "add", "def add():\n  return 1\n", [("add", .func "add")]⟩]

/-- The state `sessionStep .over c4State` produces. -/
def c4After : EngineState :=
  { queue := []
    stack := [⟨[("addFUNC_DEF", .str "def add():\n  return 1\n"), ("add", .func "add"),
                ("executable_str", .str "def add():\n  return 1")],
               [("executable_str", .str "def add():\n  return 1")]⟩]
    history := [([],
                 [⟨[("addFUNC_DEF", .str "def add():\n  return 1\n"), ("add", .func "add"),
                    ("executable_str", .str "def add():\n  return 1")],
                   [("executable_str", .str "def add():\n  return 1")]⟩]),
                ([⟨.functionDef "add", "def add():\n  return 1\n", [("add", .func "add")]⟩],
                 [⟨[], []⟩])]
    frameBound := true }

/-- A frame with one unrelated local and one unrelated global binding. -/
def c5Frame : Frame := ⟨[("a", .intv 0)], [("b", .intv 1)]⟩

/-- The program `a = 1` / `b = 2`, freshly loaded. -/
def c6State : EngineState :=
  loadState [⟨.exprStmt, "a = 1", [("a", .intv 1)]⟩, ⟨.exprStmt, "b = 2", [("b", .intv 2)]⟩]

/-- The one-statement program `pass`, freshly loaded. -/
def c6wState : EngineState := loadState [⟨.plainStmt, "pass", []⟩]

/-- The state `sessionStep .over c6wState` produces. -/
def c6wAfter : EngineState :=
  { queue := []
    stack := [⟨[("executable_str", .str "pass")], [("executable_str", .str "pass")]⟩]
    history := [([], [⟨[("executable_str", .str "pass")], [("executable_str", .str "pass")]⟩]),
                ([⟨.plainStmt, "pass", []⟩], [⟨[], []⟩])]
    frameBound := true }

/-- A staged `import os` statement: a statement node with no `.value`
attribute, hence not a call. -/
def c8State : EngineState :=
  { queue := [⟨.plainStmt, "import os", []⟩, ⟨.exprStmt, "x = 1", [("x", .intv 1)]⟩]
    stack := [⟨[], []⟩]
    history := [([⟨.plainStmt, "import os", []⟩], [⟨[], []⟩])]
    frameBound := false }

/-- A staged assignment `x = 1` whose value is not a call. -/
def c8wState : EngineState :=
  { queue := [⟨.exprStmt, "x = 1", [("x", .intv 1)]⟩]
    stack := [⟨[], []⟩]
    history := [([], [⟨[], []⟩])]
    frameBound := false }

/-- A state whose history holds a single snapshot (as right after load). -/
def c9State : EngineState :=
  { queue := [⟨.exprStmt, "x = 1", [("x", .intv 1)]⟩, ⟨.exprStmt, "y = 2", [("y", .intv 2)]⟩]
    stack := [⟨[("w", .intv 7)], []⟩]
    history := [([⟨.exprStmt, "y = 2", [("y", .intv 2)]⟩], [⟨[], []⟩])]
    frameBound := false }

/-- The one-statement program `  z = 3  ` (with surrounding whitespace in
its located text), freshly loaded. -/
def c10State : EngineState := loadState [⟨.exprStmt, "  z = 3  ", [("z", .intv 3)]⟩]

/-- The state `sessionStep .over c10State` produces. -/
def c10After : EngineState :=
  { queue := []
    stack := [⟨[("z", .intv 3), ("executable_str", .str "z = 3")],
               [("executable_str", .str "z = 3")]⟩]
    history := [([], [⟨[("z", .intv 3), ("executable_str", .str "z = 3")],
                      [("executable_str", .str "z = 3")]⟩]),
                ([⟨.exprStmt, "  z = 3  ", [("z", .intv 3)]⟩], [⟨[], []⟩])]
    frameBound := true }

/-! ### Lookup lemmas for the dictionary model -/

theorem dlookup_append (k : String) (a b : List (String × Value)) :
    dlookup k (a ++ b) =
      match dlookup k a with
      | some v => some v
      | none => dlookup k b := by
  induction a with
  | nil => simp [dlookup]
  | cons kv a' ih => by_cases h : kv.1 = k <;> simp [dlookup, h, ih]

theorem dlookup_map_upd (k : String) (a b : List (String × Value)) :
    dlookup k (a.map (fun kv =>
        match dlookup kv.1 b with
        | some v => (kv.1, v)
        | none => kv)) =
      match dlookup k a with
      | some w =>
        match dlookup k b with
        | some v => some v
        | none => some w
      | none => none := by
  induction a with
  | nil => simp [dlookup]
  | cons kv a' ih =>
    by_cases h : kv.1 = k
    · subst h
      cases hb : dlookup kv.1 b <;> simp [dlookup, hb]
    · cases hb : dlookup kv.1 b <;> simp [dlookup, h, hb, ih]

theorem dlookup_filter_keep (k : String) (a b : List (String × Value))
    (h : dlookup k a = none) :
    dlookup k (b.filter (fun kv => (dlookup kv.1 a).isNone)) = dlookup k b := by
  induction b with
  | nil => simp
  | cons kv b' ih =>
    by_cases hk : kv.1 = k
    · subst hk
      simp [List.filter, dlookup, h]
    · cases ha : (dlookup kv.1 a).isNone <;> simp [List.filter, dlookup, hk, ha, ih]

/-- The observational content of `{**a, **b}`: lookup prefers `b`,
falling back to `a`. -/
theorem dlookup_dictMerge (k : String) (a b : List (String × Value)) :
    dlookup k (dictMerge a b) =
      match dlookup k b with
      | some v => some v
      | none => dlookup k a := by
  unfold dictMerge
  rw [dlookup_append, dlookup_map_upd]
  cases ha : dlookup k a with
  | none =>
    rw [dlookup_filter_keep k a b ha]
    cases hb : dlookup k b <;> simp
  | some w => cases hb : dlookup k b <;> simp

theorem dlookup_map_set (d : List (String × Value)) (k : String) (v : Value) :
    dlookup k (d.map (fun kv => if kv.1 = k then (k, v) else kv)) =
      (dlookup k d).map (fun _ => v) := by
  induction d with
  | nil => simp [dlookup]
  | cons kv d' ih =>
    by_cases hk : kv.1 = k
    · simp [dlookup, hk]
    · simp [dlookup, hk, ih]

theorem dlookup_map_set_ne (d : List (String × Value)) (k k' : String) (v : Value)
    (h : k' ≠ k) :
    dlookup k' (d.map (fun kv => if kv.1 = k then (k, v) else kv)) = dlookup k' d := by
  induction d with
  | nil => simp
  | cons kv d' ih =>
    by_cases hk : kv.1 = k
    · subst hk
      have hne : ¬(kv.1 = k') := fun hx => h hx.symm
      simp [dlookup, hne, ih]
    · by_cases hk' : kv.1 = k' <;> simp [dlookup, hk, hk', h, ih]

/-- `d[k] = v` makes `k` resolve to `v`. -/
theorem dlookup_dictSet_self (d : List (String × Value)) (k : String) (v : Value) :
    dlookup k (dictSet d k v) = some v := by
  unfold dictSet
  cases hd : dlookup k d with
  | some w => simp [hd, dlookup_map_set]
  | none =>
    simp only [hd, Option.isSome_none, Bool.false_eq_true, if_false]
    rw [dlookup_append, hd]
    simp [dlookup]

/-- `d[k] = v` leaves every other key's resolution unchanged. -/
theorem dlookup_dictSet_ne (d : List (String × Value)) (k k' : String) (v : Value)
    (h : k' ≠ k) : dlookup k' (dictSet d k v) = dlookup k' d := by
  unfold dictSet
  cases hd : dlookup k d with
  | some w =>
    simp only [hd, Option.isSome_some, if_true]
    exact dlookup_map_set_ne d k k' v h
  | none =>
    simp only [hd, Option.isSome_none, Bool.false_eq_true, if_false]
    rw [dlookup_append]
    cases hd' : dlookup k' d
    · simp only [hd', dlookup]
      rw [if_neg (fun hx : k = k' => h hx.symm)]
    · simp

/-- No marker-suffixed definition key collides with the executor's
leftover local name. -/
theorem funcKey_ne_executable (name : String) :
    name ++ FUNCTION_DEF_KEY_SUFFIX ≠ "executable_str" := by
  intro h
  have h2 := congrArg (fun s : String => s.data.reverse.head?) h
  simp [FUNCTION_DEF_KEY_SUFFIX, String.instAppend, String.append] at h2

theorem foldl_append_eq_map_foldl (g : Nat → String) (l : List Nat) (acc : String) :
    l.foldl (fun a i => a ++ g i ++ "\n") acc =
      (l.map (fun i => g i ++ "\n")).foldl (fun a b => a ++ b) acc := by
  induction l generalizing acc with
  | nil => rfl
  | cons i l' ih =>
    simp only [List.foldl_cons, List.map_cons]
    rw [ih, String.append_assoc]

/-! ### Claim checks -/

/-- C1: the claim says that issuing Back immediately after a successful
forward command restores a state observationally equal to the one before
it.  On the freshly loaded program `x = 1` / `y = 2`, Over followed by
Back does discard the two most recent snapshots and does restore the
recorded pending queue, but the frame stack afterwards has TWO frames
instead of the original one: the still-bound Python local `frame` from
the Over iteration is re-appended onto the restored stack by the
`if frame:` tail of the loop (main.py lines 131-132).  The restored
state is therefore not observationally equal to the starting one; the
claim and spec 8 describe the evident intent, and the unconditional
re-append after `_step_back` is the slip. -/
theorem c1_back_after_over_not_inverse :
    ((sessionStep .over c1State).bind (fun st => sessionStep .back st)).map
        (fun st => (st.queue == c1State.queue, st.stack.length)) = .ok (true, 2) ∧
      c1State.stack.length = 1 := by decide

/-- C2 counterexample: on a staged call `foo()` with no `fooFUNC_DEF`
binding in the active frame, Into raises the resolution error, but the
error state's pending queue has already been advanced past the call
statement (it was popped at the top of the loop), so the claim's "the
pending queue is not advanced" is false and the statement cannot be
retried — the session aborts. -/
theorem c2_counterexample :
    sessionStep .into c2State =
        .error (.sysErr, { c2State with queue := c2State.queue.tail }) ∧
      c2State.queue.tail ≠ c2State.queue := by decide

/-- C2 (amended): for every staged `CallExpression` statement whose
marker-suffixed callee name is bound in neither the active frame's
locals nor its globals, Into propagates `_resolve`'s `SystemError` (the
`except KeyError` of `_step_into` does not match it), aborting the
session: no frame is pushed, and the frame stack and the history are
unchanged, but the staged statement has already been removed from the
pending queue. -/
theorem c2_amended (st : EngineState) (s : Stmt) (rest : List Stmt) (callee : String)
    (f : Frame) (fs : List Frame)
    (hq : st.queue = s :: rest) (hk : s.kind = .callStmt callee)
    (hstk : st.stack = f :: fs)
    (hres : resolve f (callee ++ FUNCTION_DEF_KEY_SUFFIX) = none) :
    sessionStep .into st = .error (.sysErr, { st with queue := rest }) := by
  simp only [sessionStep, hq, captureDef, hk, doInto, step_into, hstk, hres]

/-- C2 witness: the amended statement applied to `c2State`. -/
theorem c2_amended_witness :
    sessionStep .into c2State =
      .error (.sysErr, { c2State with queue := [⟨.exprStmt, "x = 1", [("x", .intv 1)]⟩] }) :=
  c2_amended c2State ⟨.callStmt "foo", "foo()", []⟩ [⟨.exprStmt, "x = 1", [("x", .intv 1)]⟩]
    "foo" ⟨[], []⟩ [] rfl rfl rfl (by decide)

/-- C3: the claim says a resolvable Into parses the definition text,
splices the parsed statements at the front of the pending queue, and
pushes the new frame.  In the code, `_step_into` returns the `ast.Module`
object itself and line 121 computes `reversed(inner_ast)` over it;
`ast.Module` supports neither `reversed` nor the sequence protocol, so a
`TypeError` is raised (the intended expression iterates `inner_ast.body`,
compare line 69).  On the scenario of spec 8 the resolution succeeds and
yet Into aborts with that `TypeError`: nothing is spliced, no frame is
pushed, no snapshot is recorded, and the session dies. -/
theorem c3_into_aborts_with_typeerror :
    resolve (activeFrame c3State) ("add" ++ FUNCTION_DEF_KEY_SUFFIX) =
        some (.str "def add():\n  return 1\n") ∧
      sessionStep .into c3State =
        .error (.typeErr, { c3State with queue := [] }) := by decide

/-- C4: for every staged `Definition` statement, the engine captures its
exact located source text into the active frame's locals under the
marker-suffixed key before the step command is dispatched, so after any
step command that completes, the binding is present in the active
frame's locals.  Over: the capture survives execution because the
statement's `exec` effects do not rebind the marker key (hypothesis,
true of executing a `def`) and the executor's leftover `executable_str`
key differs from every marker key.  Back: the frame re-appended by the
loop tail is the very object that received the capture.  Into on a
definition statement never completes (`node.value` raises
`AttributeError`), so the claim holds vacuously there. -/
theorem c4_definition_capture (st st' : EngineState) (cmd : Cmd)
    (name src : String) (fx : List (String × Value)) (rest : List Stmt)
    (hq : st.queue = ⟨.functionDef name, src, fx⟩ :: rest)
    (hfx : dlookup (name ++ FUNCTION_DEF_KEY_SUFFIX) fx = none)
    (hok : sessionStep cmd st = .ok st') :
    dlookup (name ++ FUNCTION_DEF_KEY_SUFFIX) (activeFrame st').locals =
      some (.str src) := by
  simp only [sessionStep, hq, captureDef] at hok
  cases hstk : st.stack with
  | nil => simp [hstk] at hok
  | cons f fs =>
    simp only [hstk] at hok
    cases cmd with
    | over =>
      simp only [doOver] at hok
      rw [← Except.ok.inj hok]
      simp only [activeFrame, recordSnapshot, run_executor, List.headI]
      rw [dlookup_dictMerge, dlookup_dictMerge]
      have hne : ¬("executable_str" = name ++ FUNCTION_DEF_KEY_SUFFIX) :=
        fun hx => funcKey_ne_executable name hx.symm
      simp only [dlookup, hne, if_neg, hfx]
      exact dlookup_dictSet_self _ _ _
    | into => simp [doInto] at hok
    | back =>
      cases hh : st.history with
      | nil => simp [doBack, hh] at hok
      | cons h1 hrest =>
        cases hrest with
        | nil => simp [doBack, hh] at hok
        | cons h2 hrest2 =>
          rcases h2 with ⟨q1, k1⟩
          simp only [doBack, hh] at hok
          cases hfb : st.frameBound with
          | false => simp [hfb] at hok
          | true =>
            simp only [hfb, if_true] at hok
            rw [← Except.ok.inj hok]
            simp only [activeFrame, recordSnapshot, List.headI]
            exact dlookup_dictSet_self _ _ _

/-- C4 witness: stepping Over the single definition of `c4State` leaves
`addFUNC_DEF` bound to the definition's source text in the active
frame's locals. -/
theorem c4_definition_capture_witness :
    dlookup ("add" ++ FUNCTION_DEF_KEY_SUFFIX) (activeFrame c4After).locals =
      some (.str "def add():\n  return 1\n") :=
  c4_definition_capture c4State c4After .over "add" "def add():\n  return 1\n"
    [("add", .func "add")] [] rfl (by decide) (by decide)

/-- C5 counterexample: executing `x = 5` (whose `exec` writes `x ↦ 5`
into the locals dict handed to it) leaves `x` bound in the frame's
locals but NOT in its globals, so the claim's "unions exactly those new
bindings into both the frame's locals and the frame's globals" is
false: `exec` with separate globals and locals dicts writes only into
the locals dict, and lines 150-151 merge only the executor's leftover
local `executable_str` into both mappings. -/
theorem c5_counterexample :
    dlookup "x" (run_executor "x = 5" [("x", .intv 5)] c5Frame).locals =
        some (.intv 5) ∧
      dlookup "x" (run_executor "x = 5" [("x", .intv 5)] c5Frame).globals = none := by
  decide

/-- C5 (amended): executing a statement merges its new bindings into the
active frame's locals only — a later value wins on key collision, and
every pre-existing binding whose key is not among the new bindings is
preserved — while the frame's globals receive none of them; separately,
the executor's leftover local binding `executable_str ↦` the executed
text is merged into both mappings. -/
theorem c5_amended (f : Frame) (fx : List (String × Value)) (s k : String) :
    (∀ v, dlookup k fx = some v → k ≠ "executable_str" →
        dlookup k (run_executor s fx f).locals = some v) ∧
    (dlookup k fx = none → k ≠ "executable_str" →
        dlookup k (run_executor s fx f).locals = dlookup k f.locals) ∧
    (k ≠ "executable_str" →
        dlookup k (run_executor s fx f).globals = dlookup k f.globals) ∧
    dlookup "executable_str" (run_executor s fx f).locals = some (.str s) ∧
    dlookup "executable_str" (run_executor s fx f).globals = some (.str s) := by
  refine ⟨fun v hv hk => ?_, fun hv hk => ?_, fun hk => ?_, ?_, ?_⟩ <;>
    simp only [run_executor, dlookup_dictMerge, dlookup]
  · rw [if_neg (fun hx : "executable_str" = k => hk hx.symm), hv]
  · rw [if_neg (fun hx : "executable_str" = k => hk hx.symm), hv]
  · rw [if_neg (fun hx : "executable_str" = k => hk hx.symm)]
  · simp
  · simp

/-- C5 witness: the amended statement applied to `c5Frame` with the
effects of `x = 5`, for the new key `x` and the untouched global `b`. -/
theorem c5_amended_witness :
    dlookup "x" (run_executor "x = 5" [("x", .intv 5)] c5Frame).locals =
        some (.intv 5) ∧
      dlookup "b" (run_executor "x = 5" [("x", .intv 5)] c5Frame).globals =
        some (.intv 1) := by
  constructor
  · exact (c5_amended c5Frame [("x", .intv 5)] "x = 5" "x").1 (.intv 5)
      (by decide) (by decide)
  · rw [(c5_amended c5Frame [("x", .intv 5)] "x = 5" "b").2.2.1 (by decide)]
    decide

/-- C6 counterexample: from the freshly loaded two-statement program
`c6State` (history length 1), a completed Over makes the history length
2, and a completed Back then makes it 1: Back removes the two most
recent snapshots but the loop tail records one again — a net removal of
one — so after these 2 steps the length is 1, not the 2 + 1 = 3 the
claim's accounting gives. -/
theorem c6_counterexample :
    (sessionStep .over c6State).map (fun st => st.history.length) = .ok 2 ∧
      ((sessionStep .over c6State).bind (fun st => sessionStep .back st)).map
        (fun st => st.history.length) = .ok 1 ∧
      c6State.history.length = 1 := by decide

/-- C6 (amended): each completed Over appends exactly one snapshot, and
each completed Back removes the two most recent snapshots and then
records one snapshot of the restored state — a net decrease of exactly
one — so the history length is 1 + (completed Overs) − (completed
Backs), not the number of steps taken plus one. -/
theorem c6_amended (st st' : EngineState) (hq : st.queue ≠ []) :
    (sessionStep .over st = .ok st' →
        st'.history.length = st.history.length + 1) ∧
    (sessionStep .back st = .ok st' →
        st.history.length = st'.history.length + 1) := by
  cases hqe : st.queue with
  | nil => exact absurd hqe hq
  | cons s rest =>
    constructor
    · intro hok
      simp only [sessionStep, hqe] at hok
      rcases hks : s.kind with name | callee | _ | _ <;>
        simp only [captureDef, hks] at hok
      all_goals
        cases hstk : st.stack with
        | nil => simp [hstk, doOver] at hok
        | cons f fs =>
          simp only [hstk, doOver] at hok
          rw [← Except.ok.inj hok]
          simp [recordSnapshot]
    · intro hok
      simp only [sessionStep, hqe] at hok
      rcases hks : s.kind with name | callee | _ | _ <;>
        simp only [captureDef, hks] at hok
      case functionDef =>
        cases hstk : st.stack with
        | nil => simp [hstk] at hok
        | cons f fs =>
          simp only [hstk] at hok
          cases hh : st.history with
          | nil => simp [doBack, hh] at hok
          | cons h1 hrest =>
            cases hrest with
            | nil => simp [doBack, hh] at hok
            | cons h2 hrest2 =>
              rcases h2 with ⟨q1, k1⟩
              simp only [doBack, hh] at hok
              cases hfb : st.frameBound with
              | false => simp [hfb] at hok
              | true =>
                simp only [hfb, if_true] at hok
                rw [← Except.ok.inj hok]
                simp [recordSnapshot, hh]
      all_goals
        cases hh : st.history with
        | nil => simp [doBack, hh] at hok
        | cons h1 hrest =>
          cases hrest with
          | nil => simp [doBack, hh] at hok
          | cons h2 hrest2 =>
            rcases h2 with ⟨q1, k1⟩
            simp only [doBack, hh] at hok
            cases hfb : st.frameBound with
            | false => simp [hfb] at hok
            | true =>
              simp only [hfb, if_true] at hok
              rw [← Except.ok.inj hok]
              simp [recordSnapshot, hh]

/-- C6 witness: the Over half of the amended statement applied to the
one-statement program `pass`. -/
theorem c6_amended_witness :
    c6wAfter.history.length = c6wState.history.length + 1 :=
  (c6_amended c6wState c6wAfter (by decide)).1 (by decide)

/-- C7 counterexample: on the single line `x = 1 # c` with the
assignment's span (line 1, columns 0 to 5 end-exclusive, within bounds),
the locator returns the string `x = 1` followed by one extra character
(a space) and a newline: it slices up to `end_col_offset + 1` and
appends a newline after every line including the last, whereas the
claim's end-exclusive, newline-joined description yields exactly `x = 1`
— so the output is not the statement's exact textual form. -/
theorem c7_counterexample :
    get_executable_str ⟨1, 0, 1, 5⟩ ["x = 1 # c"] = "x = 1 \n" ∧
      specLocator ⟨1, 0, 1, 5⟩ ["x = 1 # c"] = "x = 1" ∧
      get_executable_str ⟨1, 0, 1, 5⟩ ["x = 1 # c"] ≠
        specLocator ⟨1, 0, 1, 5⟩ ["x = 1 # c"] := by decide

/-- C7 (amended): the locator returns, for each line of the span, the
slice from the start column (first line) or column 0 (subsequent lines)
up to `end_col_offset + 1` — clamped to the line length — on the last
line when the end column is nonzero, and the full line otherwise, each
piece followed by a newline; the result therefore carries a trailing
newline and can include one character beyond the statement's end
column. -/
theorem c7_amended (node : Span) (code_lines : List String) :
    get_executable_str node code_lines =
      concatAll ((locatorPieces node code_lines).map (fun p => p ++ "\n")) := by
  unfold get_executable_str concatAll locatorPieces
  rw [foldl_append_eq_map_foldl]
  rw [List.map_map]
  rfl

/-- C8 counterexample: on a staged `import os` — a statement node with
no `.value` attribute — Into raises `AttributeError` at
`type(node.value)` and aborts the session, while Over on the same state
completes normally; so Into does not produce the same transition as
Over for every non-call statement. -/
theorem c8_counterexample :
    sessionStep .into c8State =
        .error (.attrErr, { c8State with queue := c8State.queue.tail }) ∧
      (sessionStep .over c8State).map (fun st => st.history.length) = .ok 2 ∧
      sessionStep .into c8State ≠ sessionStep .over c8State := by decide

/-- C8 (amended): for a staged statement that has a `.value` attribute
whose value is not a call, Into prints the degradation warning and then
produces exactly the same state transition as Over; but for a staged
statement with no `.value` attribute (a function definition or another
plain statement), Into raises `AttributeError` and aborts the session
instead of degrading to Over. -/
theorem c8_amended (st : EngineState) (s : Stmt) (rest : List Stmt)
    (hq : st.queue = s :: rest) :
    (s.kind = .exprStmt → sessionStep .into st = sessionStep .over st) ∧
    (s.kind = .plainStmt →
        sessionStep .into st = .error (.attrErr, { st with queue := rest })) ∧
    (∀ name, s.kind = .functionDef name → st.stack ≠ [] →
        ∃ st2, sessionStep .into st = .error (.attrErr, st2)) := by
  refine ⟨fun hk => ?_, fun hk => ?_, fun name hk hstk => ?_⟩
  · simp [sessionStep, hq, captureDef, hk, doInto]
  · simp [sessionStep, hq, captureDef, hk, doInto]
  · cases hse : st.stack with
    | nil => exact absurd hse hstk
    | cons f fs =>
      refine ⟨{ st with queue := rest, stack := capturedFrame f name s.src :: fs }, ?_⟩
      simp [sessionStep, hq, captureDef, hk, hse, doInto, capturedFrame]

/-- C8 witness: on the staged assignment `x = 1`, Into and Over produce
identical results. -/
theorem c8_amended_witness :
    sessionStep .into c8wState = sessionStep .over c8wState :=
  (c8_amended c8wState ⟨.exprStmt, "x = 1", [("x", .intv 1)]⟩ [] rfl).1 rfl

/-- C9 counterexample: with exactly one snapshot in history, Back raises
an uncaught `IndexError` (`pop` on the empty `states_across_time`) that
aborts the session — not a reported `HistoryUnderflowError` with no
mutation: at the failure the staged statement has already been popped
from the pending queue and the sole snapshot was discarded by the first
`pop`, leaving the history empty. -/
theorem c9_counterexample :
    c9State.history.length = 1 ∧
      sessionStep .back c9State =
        .error (.indexErr,
          { c9State with queue := c9State.queue.tail, history := [] }) ∧
      ({ c9State with queue := c9State.queue.tail, history := [] }
          : EngineState).history ≠ c9State.history := by decide

/-- C9 (amended): whenever the history holds fewer than two snapshots,
Back fails with an uncaught `IndexError` that aborts the session; at the
failure the staged statement has been removed from the pending queue,
the history is empty (a sole snapshot, if one existed, was discarded by
the first `pop` before the second one failed), and the frame stack keeps
its length (only the unconditional definition capture can have modified
the bindings of its top frame). -/
theorem c9_amended (st : EngineState) (s : Stmt) (rest : List Stmt)
    (hq : st.queue = s :: rest) (hstk : st.stack ≠ [])
    (hh : st.history.length < 2) :
    ∃ st2, sessionStep .back st = .error (.indexErr, st2) ∧
      st2.queue = rest ∧ st2.history = [] ∧ st2.stack.length = st.stack.length := by
  cases hse : st.stack with
  | nil => exact absurd hse hstk
  | cons f fs =>
    have hcap : ∃ f2, captureDef s { st with queue := rest } =
        .ok { st with queue := rest, stack := f2 :: fs } := by
      rcases hks : s.kind with name | callee | _ | _
      · exact ⟨capturedFrame f name s.src, by simp [captureDef, hks, hse, capturedFrame]⟩
      all_goals exact ⟨f, by simp [captureDef, hks, hse]⟩
    obtain ⟨f2, hc⟩ := hcap
    cases hhe : st.history with
    | nil =>
      rw [hhe] at hc
      refine ⟨{ queue := rest, stack := f2 :: fs, history := [],
                frameBound := st.frameBound }, ?_, rfl, rfl, by simp [hse]⟩
      simp [sessionStep, hq, hc, doBack, hhe]
    | cons h1 hrest =>
      cases hrest with
      | nil =>
        rw [hhe] at hc
        refine ⟨{ queue := rest, stack := f2 :: fs, history := [],
                  frameBound := st.frameBound }, ?_, rfl, rfl, by simp [hse]⟩
        simp [sessionStep, hq, hc, doBack, hhe]
      | cons h2 hrest2 =>
        rw [hhe] at hh
        simp only [List.length_cons] at hh
        omega

/-- C9 witness: the amended statement applied to `c9State`, whose
history holds a single snapshot. -/
theorem c9_amended_witness :
    ∃ st2, sessionStep .back c9State = .error (.indexErr, st2) ∧
      st2.queue = [⟨.exprStmt, "y = 2", [("y", .intv 2)]⟩] ∧ st2.history = [] ∧
      st2.stack.length = c9State.stack.length :=
  c9_amended c9State ⟨.exprStmt, "x = 1", [("x", .intv 1)]⟩
    [⟨.exprStmt, "y = 2", [("y", .intv 2)]⟩] rfl (by decide) (by decide)

/-- C10: after any completed step-over, the executed frame — the active
frame of the resulting state — holds in both its locals and its globals
a binding for the key `executable_str` whose value is the executed
statement's text (the located text stripped of surrounding whitespace,
exactly as `_step_over` passes it to `_run_executor`): the executor
deep-copies its own `f_locals`, deletes `frame` and `self`, and merges
the surviving `executable_str` binding into both mappings alongside the
statement's own effects. -/
theorem c10_over_executable (st st' : EngineState) (s : Stmt) (rest : List Stmt)
    (hq : st.queue = s :: rest)
    (hok : sessionStep .over st = .ok st') :
    dlookup "executable_str" (activeFrame st').locals = some (.str (pyStrip s.src)) ∧
    dlookup "executable_str" (activeFrame st').globals = some (.str (pyStrip s.src)) := by
  simp only [sessionStep, hq] at hok
  rcases hks : s.kind with name | callee | _ | _ <;>
    simp only [captureDef, hks] at hok
  case functionDef =>
    cases hstk : st.stack with
    | nil => simp [hstk] at hok
    | cons f fs =>
      simp only [hstk, doOver] at hok
      rw [← Except.ok.inj hok]
      simp [activeFrame, recordSnapshot, run_executor, dlookup_dictMerge, dlookup]
  all_goals {
    cases hstk : st.stack with
    | nil => simp [hstk, doOver] at hok
    | cons f fs =>
      simp only [hstk, doOver] at hok
      rw [← Except.ok.inj hok]
      simp [activeFrame, recordSnapshot, run_executor, dlookup_dictMerge, dlookup] }

/-- C10 witness: stepping Over the statement `  z = 3  ` leaves
`executable_str ↦ "z = 3"` (the stripped text) in both mappings of the
executed frame. -/
theorem c10_over_executable_witness :
    dlookup "executable_str" (activeFrame c10After).locals =
        some (.str (pyStrip "  z = 3  ")) ∧
      dlookup "executable_str" (activeFrame c10After).globals =
        some (.str (pyStrip "  z = 3  ")) :=
  c10_over_executable c10State c10After ⟨.exprStmt, "  z = 3  ", [("z", .intv 3)]⟩
    [] rfl (by decide)
